import Mathlib

/-!
Verification of the natural-language specification of
`src/fastlib/tree/spacetree.h` (class `BinarySpaceTree`) against the code.

The C++ class is a template over `TBound`, `TDataset`, `TStatistic`; we embed
it with Lean type parameters `β` (bound), `δ` (dataset) and `σ` (statistic).
`index_t` values (`begin_`, `count_`) are embedded as `Nat`.

The node holds two nullable owning pointers `left_`, `right_`.  We embed the
four possible null/non-null pointer configurations as four constructors, so
that the code's `is_leaf() { return !left_; }` — which inspects only the left
pointer — is represented exactly.

Debug-build semantics are modelled: `DEBUG_ASSERT(c)` is embedded as a check
that returns the error `TreeError.debugAssert` when `c` fails, and
`DEBUG_POISON_PTR(p)` as an assignment of the poison value to `p`
(the macros live in `base/cc.h`, which is not part of this extract; the spec
describes them as "debug-only poisoning of uninitialized fields and
assertion-based invariant checks").  Dereferencing a null pointer, which is
undefined behaviour in the source, is embedded as `TreeError.nullDeref`.
-/

/-- Errors of the embedded debug-build semantics: a failing `DEBUG_ASSERT`
(abort), a null-pointer dereference (undefined behaviour in the source),
a magic-tag mismatch reported by `AssertMagic`, and a malformed or exhausted
input stream. -/
inductive TreeError : Type where
  | debugAssert
  | nullDeref
  | formatMismatch
  | badStream
deriving DecidableEq, Repr

/-- A `BinarySpaceTree` node.  The four constructors encode the four
null/non-null configurations of the two child pointers `left_` and `right_`:
`node0` has both null, `nodeL` has only `left_`, `nodeR` has only `right_`,
`node2` has both.  Fields in order: `bound_`, `begin_`, `count_`, `stat_`,
then the non-null children. -/
inductive Node (β σ : Type) : Type where
  | node0 (bound_ : β) (begin_ count_ : Nat) (stat_ : σ)
  | nodeL (bound_ : β) (begin_ count_ : Nat) (stat_ : σ) (l : Node β σ)
  | nodeR (bound_ : β) (begin_ count_ : Nat) (stat_ : σ) (r : Node β σ)
  | node2 (bound_ : β) (begin_ count_ : Nat) (stat_ : σ) (l r : Node β σ)
deriving DecidableEq

/-- Accessor `begin()`. -/
def Node.begin : Node β σ → Nat
  | .node0 _ b _ _ => b
  | .nodeL _ b _ _ _ => b
  | .nodeR _ b _ _ _ => b
  | .node2 _ b _ _ _ _ => b

/-- Accessor `count()`. -/
def Node.count : Node β σ → Nat
  | .node0 _ _ c _ => c
  | .nodeL _ _ c _ _ => c
  | .nodeR _ _ c _ _ => c
  | .node2 _ _ c _ _ _ => c

/-- Accessor `bound()`. -/
def Node.bound : Node β σ → β
  | .node0 b _ _ _ => b
  | .nodeL b _ _ _ _ => b
  | .nodeR b _ _ _ _ => b
  | .node2 b _ _ _ _ _ => b

/-- Accessor `stat()`. -/
def Node.stat : Node β σ → σ
  | .node0 _ _ _ s => s
  | .nodeL _ _ _ s _ => s
  | .nodeR _ _ _ s _ => s
  | .node2 _ _ _ s _ _ => s

/-- Accessor `left()`: the `left_` pointer, `none` when null. -/
def Node.left : Node β σ → Option (Node β σ)
  | .node0 _ _ _ _ => none
  | .nodeL _ _ _ _ l => some l
  | .nodeR _ _ _ _ _ => none
  | .node2 _ _ _ _ l _ => some l

/-- Accessor `right()`: the `right_` pointer, `none` when null. -/
def Node.right : Node β σ → Option (Node β σ)
  | .node0 _ _ _ _ => none
  | .nodeL _ _ _ _ _ => none
  | .nodeR _ _ _ _ r => some r
  | .node2 _ _ _ _ _ r => some r

/-- Source: `is_leaf() const { return !left_; }` — inspects only the left pointer. -/
def Node.is_leaf (t : Node β σ) : Bool :=
  t.left.isNone

/-- All nodes of the tree rooted at `t` (the node itself and, recursively,
the nodes reachable through the non-null child pointers). -/
def subnodes : Node β σ → List (Node β σ)
  | .node0 b g c s => [.node0 b g c s]
  | .nodeL b g c s l => .nodeL b g c s l :: subnodes l
  | .nodeR b g c s r => .nodeR b g c s r :: subnodes r
  | .node2 b g c s l r => .node2 b g c s l r :: (subnodes l ++ subnodes r)

/-- Number of nodes of the tree rooted at `t`. -/
def numNodes : Node β σ → Nat
  | .node0 _ _ _ _ => 1
  | .nodeL _ _ _ _ l => 1 + numNodes l
  | .nodeR _ _ _ _ r => 1 + numNodes r
  | .node2 _ _ _ _ l r => 1 + numNodes l + numNodes r

/-- Both child pointers are null or both are non-null, at every node:
the "both present or both absent" shape invariant of the spec. -/
def bothOrNone : Node β σ → Bool
  | .node0 _ _ _ _ => true
  | .nodeL _ _ _ _ _ => false
  | .nodeR _ _ _ _ _ => false
  | .node2 _ _ _ _ l r => bothOrNone l && bothOrNone r

/-- A valid, fully constructed tree: every node has both children or none,
and every internal node satisfies the contiguity invariants
`count == left.count + right.count`, `left.begin == begin`,
`right.begin == begin + left.count` (the invariants `set_children` asserts). -/
def wellFormed : Node β σ → Bool
  | .node0 _ _ _ _ => true
  | .nodeL _ _ _ _ _ => false
  | .nodeR _ _ _ _ _ => false
  | .node2 _ g c _ l r =>
      (c == l.count + r.count) && (l.begin == g) && (r.begin == g + l.count)
        && wellFormed l && wellFormed r

/-- Does some node of the tree rooted at `t` carry exactly the pair
`(bq, cq)` as its `(begin, count)`? -/
def hasNode (t : Node β σ) (bq cq : Nat) : Bool :=
  (subnodes t).any fun n => n.begin == bq && n.count == cq

/-!
`FindByBeginCount(begin_q, count_q)`.  The source has two overloads with
textually identical bodies (a `const` one returning `const BinarySpaceTree*`
and a mutable one returning `BinarySpaceTree*`); we embed both.

Body of both overloads:
```
DEBUG_ASSERT(begin_q >= begin_);
DEBUG_ASSERT(count_q <= count_);
if (begin_ == begin_q && count_ == count_q) return this;
else if (unlikely(is_leaf())) return NULL;
else if (begin_q < right_->begin_) return left_->FindByBeginCount(...);
else return right_->FindByBeginCount(...);
```
The two debug assertions become `TreeError.debugAssert`.  On a `nodeL` node
(`left_` non-null, `right_` null) the branch `begin_q < right_->begin_`
dereferences the null `right_`, which is undefined behaviour in the source;
we embed it as `TreeError.nullDeref` (such nodes violate the construction
contract and are excluded by `wellFormed`).
-/

/-- The `const` overload of `FindByBeginCount`: `.ok (some n)` models
returning the node `n`, `.ok none` models returning `NULL`. -/
def FindByBeginCount : Node β σ → Nat → Nat → Except TreeError (Option (Node β σ))
  | .node0 b g c s, bq, cq =>
      if g ≤ bq ∧ cq ≤ c then
        if g = bq ∧ c = cq then .ok (some (.node0 b g c s)) else .ok none
      else .error .debugAssert
  | .nodeL b g c s l, bq, cq =>
      if g ≤ bq ∧ cq ≤ c then
        if g = bq ∧ c = cq then .ok (some (.nodeL b g c s l)) else .error .nullDeref
      else .error .debugAssert
  | .nodeR b g c s r, bq, cq =>
      if g ≤ bq ∧ cq ≤ c then
        if g = bq ∧ c = cq then .ok (some (.nodeR b g c s r)) else .ok none
      else .error .debugAssert
  | .node2 b g c s l r, bq, cq =>
      if g ≤ bq ∧ cq ≤ c then
        if g = bq ∧ c = cq then .ok (some (.node2 b g c s l r))
        else if bq < r.begin then FindByBeginCount l bq cq
        else FindByBeginCount r bq cq
      else .error .debugAssert

/-- The mutable overload of `FindByBeginCount`; its body is textually
identical to the `const` overload's. -/
def FindByBeginCountMut : Node β σ → Nat → Nat → Except TreeError (Option (Node β σ))
  | .node0 b g c s, bq, cq =>
      if g ≤ bq ∧ cq ≤ c then
        if g = bq ∧ c = cq then .ok (some (.node0 b g c s)) else .ok none
      else .error .debugAssert
  | .nodeL b g c s l, bq, cq =>
      if g ≤ bq ∧ cq ≤ c then
        if g = bq ∧ c = cq then .ok (some (.nodeL b g c s l)) else .error .nullDeref
      else .error .debugAssert
  | .nodeR b g c s r, bq, cq =>
      if g ≤ bq ∧ cq ≤ c then
        if g = bq ∧ c = cq then .ok (some (.nodeR b g c s r)) else .ok none
      else .error .debugAssert
  | .node2 b g c s l r, bq, cq =>
      if g ≤ bq ∧ cq ≤ c then
        if g = bq ∧ c = cq then .ok (some (.node2 b g c s l r))
        else if bq < r.begin then FindByBeginCountMut l bq cq
        else FindByBeginCountMut r bq cq
      else .error .debugAssert

/-!
The `TStatistic` capability.  The source requires of it two `Init`
overloads: `Init(data, begin, count)` for leaves and
`Init(data, begin, count, left_stat, right_stat)` for internal nodes (see
`statistic.h` usage in `set_children`).  Overloading is not available on a
Lean structure field, so the two overloads get distinct field names.
-/

/-- The two `Init` overloads of the `TStatistic` capability:
`InitLeaf` is `Init(data, begin, count)`, `InitChildren` is
`Init(data, begin, count, left_stat, right_stat)`. -/
structure StatisticCap (δ σ : Type) where
  InitLeaf : δ → Nat → Nat → σ
  InitChildren : δ → Nat → Nat → σ → σ → σ

/-- Method `set_children(data, left_in, right_in)` on a node whose `bound_`,
`begin_`, `count_` currently hold the given values.  Source:
```
left_ = left_in; right_ = right_in;
if (!is_leaf()) {
  stat_.Init(data, begin_, count_, left_->stat_, right_->stat_);
  DEBUG_ASSERT(count_ == left_->count_ + right_->count_);
  DEBUG_ASSERT(left_->begin_ == begin_);
  DEBUG_ASSERT(right_->begin_ == begin_ + left_->count_);
} else {
  stat_.Init(data, begin_, count_);
}
```
`is_leaf()` inspects only `left_`, so with `left_in = NULL` the node takes
the leaf branch whatever `right_in` is, and `right_in` is stored unchanged;
with `left_in` non-null and `right_in = NULL` the statistic call
dereferences the null `right_` (undefined behaviour, embedded as
`nullDeref`). -/
def set_children (cap : StatisticCap δ σ) (data : δ) (bound_ : β)
    (begin_ count_ : Nat) (left_in right_in : Option (Node β σ)) :
    Except TreeError (Node β σ) :=
  match left_in, right_in with
  | none, none => .ok (.node0 bound_ begin_ count_ (cap.InitLeaf data begin_ count_))
  | none, some r => .ok (.nodeR bound_ begin_ count_ (cap.InitLeaf data begin_ count_) r)
  | some _, none => .error .nullDeref
  | some l, some r =>
      if count_ = l.count + r.count ∧ l.begin = begin_ ∧ r.begin = begin_ + l.count
      then .ok (.node2 bound_ begin_ count_
                  (cap.InitChildren data begin_ count_ l.stat r.stat) l r)
      else .error .debugAssert

/-!
Lifecycle state of a node before its children are attached: the raw field
contents of a `BinarySpaceTree` object, with each child pointer either the
debug poison value, null, or a pointer to a node.
-/

/-- A child-pointer field value: the debug poison pattern written by
`DEBUG_POISON_PTR`, the null pointer, or a pointer to a node. -/
inductive PtrState (β σ : Type) : Type where
  | poison
  | null
  | ptr (n : Node β σ)
deriving DecidableEq

/-- Raw field contents of a `BinarySpaceTree` object (declaration order:
`bound_`, `left_`, `right_`, `begin_`, `count_`, `stat_`). -/
structure RawNode (β σ : Type) where
  bound_ : β
  left_ : PtrState β σ
  right_ : PtrState β σ
  begin_ : Nat
  count_ : Nat
  stat_ : σ
deriving DecidableEq

/-- Modelled from the spec: the debug sentinel written into an integer field
to make uninitialized use detectable ("implementations must make
uninitialized use detectable, e.g. via a sentinel").  `BIG_BAD_NUMBER` is
declared in `base/cc.h`, which is not part of this extract; only its role as
a fixed sentinel value matters here. -/
def BIG_BAD_NUMBER : Nat := 2146666666

/-- The default constructor in a debug build:
```
DEBUG_ONLY(begin_ = BIG_BAD_NUMBER); DEBUG_ONLY(count_ = BIG_BAD_NUMBER);
DEBUG_POISON_PTR(left_); DEBUG_POISON_PTR(right_);
```
`bound_` and `stat_` are default-constructed to unspecified values, taken
here as parameters. -/
def RawNode.new (b : β) (s : σ) : RawNode β σ :=
  ⟨b, .poison, .poison, BIG_BAD_NUMBER, BIG_BAD_NUMBER, s⟩

/-- Method `Init(begin_in, count_in)`:
```
DEBUG_ASSERT(begin_ == BIG_BAD_NUMBER);
DEBUG_POISON_PTR(left_); DEBUG_POISON_PTR(right_);
begin_ = begin_in; count_ = count_in;
```
-/
def Init (n : RawNode β σ) (begin_in count_in : Nat) :
    Except TreeError (RawNode β σ) :=
  if n.begin_ = BIG_BAD_NUMBER then
    .ok { n with left_ := .poison, right_ := .poison,
                 begin_ := begin_in, count_ := count_in }
  else .error .debugAssert

/-!
Serialization.  The spec describes the Sink/Source capability as
`put(value)` / `get() -> value` plus `putTag` / `assertTag`; `file/serialize.h`
is not part of this extract, so the stream is embedded as a list of typed
tokens, one per `Put`/`Get` call.  A `Bound`, a `Dataset` and a magic tag
each serialize themselves as a single token of their own kind (their
byte-level encodings are capability contracts outside this core).
-/

/-- One token of the serialized stream: a bound written by
`bound_.Serialize`, an `index_t` written by `s->Put(begin_)` or
`s->Put(count_)`, a `bool` written by `s->Put(children)`, a statistic (never
actually written — present so that "statistics are not stored" is a
statement about a stream alphabet that could carry them), a dataset written
by `data.Serialize`, and a magic tag written by `s->PutMagic`. -/
inductive Token (β σ δ : Type) : Type where
  | bd (b : β)
  | idx (i : Nat)
  | flag (b : Bool)
  | st (s : σ)
  | dataset (d : δ)
  | magic (m : Nat)
deriving DecidableEq

/-- Is this token a statistic token? -/
def Token.isStat : Token β σ δ → Bool
  | .st _ => true
  | _ => false

/-- Method `Serialize(s)`: writes the bound, `begin_`, `count_`, the
`children = !is_leaf()` flag, and, when the flag is true, the left then the
right subtree.  On a `nodeL` node the flag is true (`is_leaf` inspects only
`left_`) and `right_->Serialize(s)` dereferences null: embedded as
`nullDeref`.  On a `nodeR` node `is_leaf()` is true, so the node is written
as a leaf and `right_` is never visited. -/
def Serialize : Node β σ → Except TreeError (List (Token β σ δ))
  | .node0 b g c _ => .ok [.bd b, .idx g, .idx c, .flag false]
  | .nodeR b g c _ _ => .ok [.bd b, .idx g, .idx c, .flag false]
  | .nodeL _ _ _ _ _ => .error .nullDeref
  | .node2 b g c _ l r =>
      match Serialize l with
      | .error e => .error e
      | .ok ol =>
        match Serialize r with
        | .error e => .error e
        | .ok orr => .ok (.bd b :: .idx g :: .idx c :: .flag true :: (ol ++ orr))

/-- One node's `Deserialize(data, s)` body, reading from a token stream:
```
bound_.Deserialize(s); s->Get(&begin_); s->Get(&count_);
bool children; s->Get(&children);
BinarySpaceTree *l = NULL; *r = NULL;
if (children) { l = new ...; l->Deserialize(data, s); r = new ...; r->Deserialize(data, s); }
set_children(data, l, r);
```
The recursion consumes tokens from the stream, so termination is by an
explicit fuel bound (any fuel at least the number of encoded nodes gives the
same result); a `Get` on a token of the wrong kind or on an empty stream is
`badStream`.  Each recursive child is deserialized into a freshly
constructed node, so the entry assertion `begin_ == BIG_BAD_NUMBER` holds
for it; the assertion at the root is modelled by `DeserializeInto` below. -/
def deserializeNode (cap : StatisticCap δ σ) (data : δ) :
    Nat → List (Token β σ δ) → Except TreeError (Node β σ × List (Token β σ δ))
  | 0, _ => .error .badStream
  | fuel + 1, .bd b :: .idx g :: .idx c :: .flag true :: s1 =>
      match deserializeNode cap data fuel s1 with
      | .error e => .error e
      | .ok (l, s2) =>
        match deserializeNode cap data fuel s2 with
        | .error e => .error e
        | .ok (r, s3) =>
          match set_children cap data b g c (some l) (some r) with
          | .error e => .error e
          | .ok n => .ok (n, s3)
  | _ + 1, .bd b :: .idx g :: .idx c :: .flag false :: s1 =>
      match set_children cap data b g c none none with
      | .error e => .error e
      | .ok n => .ok (n, s1)
  | _ + 1, _ => .error .badStream

/-- Method `Deserialize(data, s)` called on a freshly constructed node (the
`l = new BinarySpaceTree(); l->Deserialize(data, s)` pattern): the entry
assertion `begin_ == BIG_BAD_NUMBER` holds.  The fuel `s.length` suffices
for any stream that encodes a tree, since every encoded node contributes at
least one token. -/
def Deserialize (cap : StatisticCap δ σ) (data : δ) (s : List (Token β σ δ)) :
    Except TreeError (Node β σ × List (Token β σ δ)) :=
  deserializeNode cap data s.length s

/-- Calling `this->Deserialize(data, s)` on an existing object `n`:
`DEBUG_ASSERT(begin_ == BIG_BAD_NUMBER)` first, then the body. -/
def DeserializeInto (cap : StatisticCap δ σ) (n : RawNode β σ) (data : δ)
    (s : List (Token β σ δ)) : Except TreeError (Node β σ × List (Token β σ δ)) :=
  if n.begin_ = BIG_BAD_NUMBER then Deserialize cap data s
  else .error .debugAssert

/-- Modelled from the spec: `file::CreateMagic("spacetree")` from
`file/serialize.h` (not part of this extract) — a fixed number identifying
the structural format name, to which the `MAGIC_NUMBER`s of the concrete
`TDataset` and `TBound` types are added.  Only its role as a fixed constant
matters. -/
def CreateMagic_spacetree : Nat := 731

/-- Method `SerializeAll(data, s)`:
```
s->PutMagic(file::CreateMagic("spacetree") + MAGIC_NUMBER(TDataset) + MAGIC_NUMBER(TBound));
data.Serialize(s);
Serialize(s);
```
`magicD` and `magicB` stand for the type-dependent constants
`MAGIC_NUMBER(TDataset)` and `MAGIC_NUMBER(TBound)`. -/
def SerializeAll (magicD magicB : Nat) (data : δ) (t : Node β σ) :
    Except TreeError (List (Token β σ δ)) :=
  match Serialize t with
  | .error e => .error e
  | .ok out => .ok (.magic (CreateMagic_spacetree + magicD + magicB) :: .dataset data :: out)

/-- Method `DeserializeAll(data, s)`:
```
s->AssertMagic(file::CreateMagic("spacetree") + MAGIC_NUMBER(TDataset) + MAGIC_NUMBER(TBound));
data->Deserialize(s);
Deserialize(*data, s);
```
`AssertMagic` fails with a format-mismatch error if the stored tag differs
from the expected one (spec: "assertTag(tag) — fails with a format-mismatch
error if the stored tag differs"). -/
def DeserializeAll (cap : StatisticCap δ σ) (magicD magicB : Nat)
    (s : List (Token β σ δ)) :
    Except TreeError (δ × Node β σ × List (Token β σ δ)) :=
  match s with
  | .magic m :: rest =>
      if m = CreateMagic_spacetree + magicD + magicB then
        match rest with
        | .dataset d :: rest2 =>
          match Deserialize cap d rest2 with
          | .error e => .error e
          | .ok (t, rest3) => .ok (d, t, rest3)
        | _ => .error .badStream
      else .error .formatMismatch
  | _ => .error .formatMismatch

/-- Follows the spec's words for the round-trip property: the tree whose
structure (`bound`, `begin`, `count`, children) is that of `t` and whose
statistics are obtained by direct bottom-up construction from the dataset —
leaves via the base form, internal nodes via the combine form.  (On the
contract-violating one-child shapes, which never occur in a `wellFormed`
tree, the base form is used.) -/
def bottomUpStats (cap : StatisticCap δ σ) (data : δ) : Node β σ → Node β σ
  | .node0 b g c _ => .node0 b g c (cap.InitLeaf data g c)
  | .nodeL b g c _ l => .nodeL b g c (cap.InitLeaf data g c) (bottomUpStats cap data l)
  | .nodeR b g c _ r => .nodeR b g c (cap.InitLeaf data g c) (bottomUpStats cap data r)
  | .node2 b g c _ l r =>
      .node2 b g c
        (cap.InitChildren data g c
          (bottomUpStats cap data l).stat (bottomUpStats cap data r).stat)
        (bottomUpStats cap data l) (bottomUpStats cap data r)

/-- Two trees have identical `bound`, `begin`, `count` and children
structure at every corresponding node (statistics are not compared). -/
def sameShape [DecidableEq β] : Node β σ → Node β σ → Bool
  | .node0 b1 g1 c1 _, .node0 b2 g2 c2 _ =>
      decide (b1 = b2) && g1 == g2 && c1 == c2
  | .nodeL b1 g1 c1 _ l1, .nodeL b2 g2 c2 _ l2 =>
      decide (b1 = b2) && g1 == g2 && c1 == c2 && sameShape l1 l2
  | .nodeR b1 g1 c1 _ r1, .nodeR b2 g2 c2 _ r2 =>
      decide (b1 = b2) && g1 == g2 && c1 == c2 && sameShape r1 r2
  | .node2 b1 g1 c1 _ l1 r1, .node2 b2 g2 c2 _ l2 r2 =>
      decide (b1 = b2) && g1 == g2 && c1 == c2 && sameShape l1 l2 && sameShape r1 r2
  | _, _ => false

/-!
Concrete instances used by witnesses and counterexamples.  The example tree
is the upper two levels of the spec's worked example: dataset of 8 points,
root `(0,8)` with children `(0,4)` and `(4,4)`.
-/

/-- A concrete statistic capability over `Nat` data and `Nat` statistics. -/
def cap0 : StatisticCap Nat Nat :=
  ⟨fun d g c => d + g + c, fun d g c ls rs => d + g + c + ls + rs⟩

/-- Concrete leaf `(0,4)`. -/
def leafA : Node Nat Nat := .node0 101 0 4 0

/-- Concrete leaf `(4,4)`. -/
def leafB : Node Nat Nat := .node0 102 4 4 0

/-- Concrete valid tree: root `(0,8)` with leaves `(0,4)` and `(4,4)`. -/
def exTree : Node Nat Nat := .node2 100 0 8 0 leafA leafB

/-!
Helper lemmas about `FindByBeginCount`.
-/

/-- Every node is among its own subnodes. -/
theorem self_mem_subnodes (t : Node β σ) : t ∈ subnodes t := by
  cases t <;> simp [subnodes]

/-- Whatever `FindByBeginCount` returns as a found node carries exactly the
queried `begin` and `count`. -/
theorem find_some_eq (t : Node β σ) (bq cq : Nat) (n : Node β σ)
    (h : FindByBeginCount t bq cq = .ok (some n)) :
    n.begin = bq ∧ n.count = cq := by
  induction t with
  | node0 b g c s =>
      simp only [FindByBeginCount] at h
      split at h
      · split at h
        · simp only [Except.ok.injEq, Option.some.injEq] at h
          subst h
          simp_all [Node.begin, Node.count]
        · simp at h
      · simp at h
  | nodeL b g c s l ih =>
      simp only [FindByBeginCount] at h
      split at h
      · split at h
        · simp only [Except.ok.injEq, Option.some.injEq] at h
          subst h
          simp_all [Node.begin, Node.count]
        · simp at h
      · simp at h
  | nodeR b g c s r ih =>
      simp only [FindByBeginCount] at h
      split at h
      · split at h
        · simp only [Except.ok.injEq, Option.some.injEq] at h
          subst h
          simp_all [Node.begin, Node.count]
        · simp at h
      · simp at h
  | node2 b g c s l r ihl ihr =>
      simp only [FindByBeginCount] at h
      split at h
      · split at h
        · simp only [Except.ok.injEq, Option.some.injEq] at h
          subst h
          simp_all [Node.begin, Node.count]
        · split at h
          · exact ihl h
          · exact ihr h
      · simp at h

/-- Whatever `FindByBeginCount` returns as a found node is a node of the
tree it was called on. -/
theorem find_some_mem (t : Node β σ) (bq cq : Nat) (n : Node β σ)
    (h : FindByBeginCount t bq cq = .ok (some n)) :
    n ∈ subnodes t := by
  induction t with
  | node0 b g c s =>
      simp only [FindByBeginCount] at h
      split at h
      · split at h
        · simp only [Except.ok.injEq, Option.some.injEq] at h
          subst h
          exact self_mem_subnodes _
        · simp at h
      · simp at h
  | nodeL b g c s l ih =>
      simp only [FindByBeginCount] at h
      split at h
      · split at h
        · simp only [Except.ok.injEq, Option.some.injEq] at h
          subst h
          exact self_mem_subnodes _
        · simp at h
      · simp at h
  | nodeR b g c s r ih =>
      simp only [FindByBeginCount] at h
      split at h
      · split at h
        · simp only [Except.ok.injEq, Option.some.injEq] at h
          subst h
          exact self_mem_subnodes _
        · simp at h
      · simp at h
  | node2 b g c s l r ihl ihr =>
      simp only [FindByBeginCount] at h
      split at h
      · split at h
        · simp only [Except.ok.injEq, Option.some.injEq] at h
          subst h
          exact self_mem_subnodes _
        · simp only [subnodes, List.mem_cons, List.mem_append]
          split at h
          · exact Or.inr (Or.inl (ihl h))
          · exact Or.inr (Or.inr (ihr h))
      · simp at h

/-- The mutable overload computes the same result as the `const` one (their
bodies are textually identical). -/
theorem find_mut_eq_find (t : Node β σ) (bq cq : Nat) :
    FindByBeginCountMut t bq cq = FindByBeginCount t bq cq := by
  induction t with
  | node0 b g c s => simp [FindByBeginCount, FindByBeginCountMut]
  | nodeL b g c s l ih => simp [FindByBeginCount, FindByBeginCountMut]
  | nodeR b g c s r ih => simp [FindByBeginCount, FindByBeginCountMut]
  | node2 b g c s l r ihl ihr =>
      simp only [FindByBeginCount, FindByBeginCountMut, ihl, ihr]

/-- Looking a node up by its own `begin` and `count` returns that node. -/
theorem find_self (t : Node β σ) :
    FindByBeginCount t t.begin t.count = .ok (some t) := by
  cases t <;> simp [FindByBeginCount, Node.begin, Node.count]

/-- On a valid tree, a query matching no node of the tree either returns
`NULL` or hits the `count_q <= count_` debug assertion at a descendant. -/
theorem find_unmatched (t : Node β σ) (bq cq : Nat)
    (hwf : wellFormed t = true)
    (hnone : ∀ n ∈ subnodes t, ¬(n.begin = bq ∧ n.count = cq)) :
    FindByBeginCount t bq cq = .ok none ∨
      FindByBeginCount t bq cq = .error .debugAssert := by
  induction t with
  | node0 b g c s =>
      simp only [FindByBeginCount]
      split
      · split
        · next heq =>
            exact (hnone _ (self_mem_subnodes _)
              (by simpa [Node.begin, Node.count] using heq)).elim
        · exact Or.inl rfl
      · exact Or.inr rfl
  | nodeL b g c s l ih => simp [wellFormed] at hwf
  | nodeR b g c s r ih => simp [wellFormed] at hwf
  | node2 b g c s l r ihl ihr =>
      simp only [wellFormed, Bool.and_eq_true, beq_iff_eq] at hwf
      obtain ⟨⟨⟨⟨hc, hlb⟩, hrb⟩, hwl⟩, hwr⟩ := hwf
      simp only [FindByBeginCount]
      split
      · split
        · next heq =>
            exact (hnone _ (self_mem_subnodes _)
              (by simpa [Node.begin, Node.count] using heq)).elim
        · split
          · exact ihl hwl (fun n hn => hnone n (by
              simp only [subnodes, List.mem_cons, List.mem_append]
              exact Or.inr (Or.inl hn)))
          · exact ihr hwr (fun n hn => hnone n (by
              simp only [subnodes, List.mem_cons, List.mem_append]
              exact Or.inr (Or.inr hn)))
      · exact Or.inr rfl

/-- C1: for every node `n` of a valid, fully constructed tree, calling
`FindByBeginCount(n.begin, n.count)` on `n` returns `n` itself. -/
theorem C1_find_identity (t : Node β σ) (hwf : wellFormed t = true) :
    ∀ n ∈ subnodes t, FindByBeginCount n n.begin n.count = .ok (some n) := by
  intro n _
  exact find_self n

/-- Witness for C1 on the concrete example tree. -/
theorem C1_find_identity_witness :
    FindByBeginCount exTree (Node.begin exTree) (Node.count exTree) =
      .ok (some exTree) :=
  C1_find_identity exTree (by decide) exTree (by decide)

/-- C2 (amended): on a valid tree, for a query satisfying the entry
preconditions and matching no node of the tree, `FindByBeginCount` either
returns `NULL` or aborts on the `count_q <= count_` debug assertion at a
descendant node; in neither case does it return a node (whose range would
then differ from the query). -/
theorem C2_find_unmatched_amended (t : Node β σ) (bq cq : Nat)
    (hwf : wellFormed t = true)
    (hpre1 : t.begin ≤ bq) (hpre2 : cq ≤ t.count)
    (hnone : ∀ n ∈ subnodes t, ¬(n.begin = bq ∧ n.count = cq)) :
    (FindByBeginCount t bq cq = .ok none ∨
      FindByBeginCount t bq cq = .error .debugAssert) ∧
    (∀ n : Node β σ, FindByBeginCount t bq cq ≠ .ok (some n)) := by
  refine ⟨find_unmatched t bq cq hwf hnone, fun n hn => ?_⟩
  exact hnone n (find_some_mem t bq cq n hn) (find_some_eq t bq cq n hn)

/-- Witness for the amended C2: the query `(5, 4)` on the example tree
matches no node, satisfies the preconditions, and returns `NULL`. -/
theorem C2_find_unmatched_amended_witness :
    FindByBeginCount exTree 5 4 = .ok none ∨
      FindByBeginCount exTree 5 4 = .error .debugAssert :=
  (C2_find_unmatched_amended exTree 5 4 (by decide) (by decide) (by decide)
    (by decide)).1

/-- C2 counterexample: the query `(0, 5)` on the valid example tree
satisfies the entry preconditions (`0 >= begin = 0`, `5 <= count = 8`) and
matches no node, yet `FindByBeginCount` does not return `NULL`: the descent
goes left into the child `(0, 4)`, where the debug assertion
`count_q <= count_` fails (`5 > 4`) and the program aborts. -/
theorem C2_counterexample :
    wellFormed exTree = true ∧
    Node.begin exTree ≤ 0 ∧ 5 ≤ Node.count exTree ∧
    hasNode exTree 0 5 = false ∧
    FindByBeginCount exTree 0 5 = .error .debugAssert ∧
    ¬ FindByBeginCount exTree 0 5 = .ok none := by
  refine ⟨by decide, by decide, by decide, by decide, rfl, fun h => ?_⟩
  have h2 : (Except.error TreeError.debugAssert :
      Except TreeError (Option (Node Nat Nat))) = Except.ok none :=
    (show FindByBeginCount exTree 0 5 = Except.error TreeError.debugAssert
      from rfl).symm.trans h
  exact Except.noConfusion h2

/-- C9: whenever either overload of `FindByBeginCount` returns a non-null
node, that node's `begin` equals the queried begin and its `count` equals
the queried count. -/
theorem C9_find_range_exact (t : Node β σ) (bq cq : Nat) (n : Node β σ) :
    (FindByBeginCount t bq cq = .ok (some n) →
      n.begin = bq ∧ n.count = cq) ∧
    (FindByBeginCountMut t bq cq = .ok (some n) →
      n.begin = bq ∧ n.count = cq) :=
  ⟨fun h => find_some_eq t bq cq n h,
   fun h => find_some_eq t bq cq n (find_mut_eq_find t bq cq ▸ h)⟩

/-- Witness for C9: the query `(4, 4)` on the example tree finds the leaf
`(4, 4)`. -/
theorem C9_find_range_exact_witness :
    Node.begin leafB = 4 ∧ Node.count leafB = 4 :=
  (C9_find_range_exact exTree 4 4 leafB).1 (by rfl)

/-!
Claims about `set_children` and `Init`.
-/

/-- A successful `set_children` with both children present yields the
internal node combining the children's statistics. -/
theorem set_children_some_some_ok (cap : StatisticCap δ σ) (data : δ)
    (b : β) (g c : Nat) (l r m : Node β σ)
    (h : set_children cap data b g c (some l) (some r) = .ok m) :
    m = .node2 b g c (cap.InitChildren data g c l.stat r.stat) l r := by
  simp only [set_children] at h
  split at h
  · injection h with h
    exact h.symm
  · simp at h

/-- C4: `set_children` with both children present asserts the contiguity
invariants and, when they hold, computes the statistic via the combine form
from both children's statistics; with both children absent it computes the
statistic via the base form over the node's own range; when both are
present but the contiguity invariants fail, the debug assertion aborts. -/
theorem C4_set_children (cap : StatisticCap δ σ) (data : δ) (bound_ : β)
    (begin_ count_ : Nat) (l r : Node β σ)
    (h1 : count_ = l.count + r.count) (h2 : l.begin = begin_)
    (h3 : r.begin = begin_ + l.count) :
    set_children cap data bound_ begin_ count_ (some l) (some r) =
      .ok (.node2 bound_ begin_ count_
        (cap.InitChildren data begin_ count_ l.stat r.stat) l r) ∧
    set_children cap data bound_ begin_ count_ none none =
      .ok (.node0 bound_ begin_ count_ (cap.InitLeaf data begin_ count_)) ∧
    (∀ l' r' : Node β σ,
      ¬(count_ = l'.count + r'.count ∧ l'.begin = begin_ ∧
          r'.begin = begin_ + l'.count) →
      set_children cap data bound_ begin_ count_ (some l') (some r') =
        .error .debugAssert) := by
  refine ⟨?_, rfl, ?_⟩
  · simp [set_children, h1, h2, h3]
  · intro l' r' hviol
    simp only [set_children]
    exact if_neg hviol

/-- Witness for C4 on the concrete example tree's root. -/
theorem C4_set_children_witness :
    set_children cap0 0 100 0 8 (some leafA) (some leafB) =
      .ok (.node2 100 0 8
        (cap0.InitChildren 0 0 8 (Node.stat leafA) (Node.stat leafB))
        leafA leafB) :=
  (C4_set_children cap0 0 100 0 8 leafA leafB (by decide) (by decide)
    (by decide)).1

/-- C5 evaluation: calling `Init` twice is caught by the debug assertion,
and so is decoding into an already-initialized node; but `set_children`
with only a left child dereferences the null right child (undefined
behaviour rather than a check), and `set_children` with only a right child
is not detected at all — it silently produces a leaf-statistic node that
retains the dangling right child. -/
theorem C5_contract_checks_eval :
    Init (RawNode.new 7 3 : RawNode Nat Nat) 0 4 =
      .ok ⟨7, .poison, .poison, 0, 4, 3⟩ ∧
    Init (⟨7, .poison, .poison, 0, 4, 3⟩ : RawNode Nat Nat) 2 2 =
      .error .debugAssert ∧
    DeserializeInto cap0 (⟨7, .poison, .poison, 0, 4, 3⟩ : RawNode Nat Nat)
      0 [] = .error .debugAssert ∧
    set_children cap0 0 9 0 4 (some leafA) none = .error .nullDeref ∧
    set_children cap0 0 9 0 4 none (some leafA) =
      .ok (.nodeR 9 0 4 (cap0.InitLeaf 0 0 4) leafA) := by
  refine ⟨rfl, ?_, ?_, rfl, rfl⟩
  · simp [Init, BIG_BAD_NUMBER]
  · simp [DeserializeInto, BIG_BAD_NUMBER]

/-- C8 counterexample: `set_children` — one of the construction operations —
called with a null left and a non-null right child succeeds and produces a
node with exactly one child present, for which `is_leaf` is `true` although
its right child is present; so neither "`is_leaf` iff both children absent"
nor "no node reachable through the construction operations has exactly one
child" holds unconditionally. -/
theorem C8_counterexample :
    set_children cap0 1 50 2 3 none (some (.node0 51 2 3 0)) =
      .ok (.nodeR 50 2 3 (cap0.InitLeaf 1 2 3) (.node0 51 2 3 0)) ∧
    Node.is_leaf
      (.nodeR 50 2 3 (cap0.InitLeaf 1 2 3) (.node0 51 2 3 0) : Node Nat Nat) =
      true ∧
    Node.right
      (.nodeR 50 2 3 (cap0.InitLeaf 1 2 3) (.node0 51 2 3 0) : Node Nat Nat) =
      some (.node0 51 2 3 0) :=
  ⟨rfl, rfl, rfl⟩

/-- Every node of a tree satisfying the both-or-none invariant satisfies it
itself. -/
theorem mem_bothOrNone (t : Node β σ) (hb : bothOrNone t = true) :
    ∀ n ∈ subnodes t, bothOrNone n = true := by
  induction t with
  | node0 b g c s =>
      intro n hn
      simp only [subnodes, List.mem_singleton] at hn
      subst hn
      rfl
  | nodeL b g c s l ih => simp [bothOrNone] at hb
  | nodeR b g c s r ih => simp [bothOrNone] at hb
  | node2 b g c s l r ihl ihr =>
      simp only [bothOrNone, Bool.and_eq_true] at hb
      intro n hn
      simp only [subnodes, List.mem_cons, List.mem_append] at hn
      rcases hn with rfl | hn | hn
      · simp [bothOrNone, hb.1, hb.2]
      · exact ihl hb.1 n hn
      · exact ihr hb.2 n hn

/-- On a node satisfying the both-or-none invariant, `is_leaf` is true
exactly when both children are absent. -/
theorem bothOrNone_is_leaf (n : Node β σ) (hb : bothOrNone n = true) :
    Node.is_leaf n = true ↔ (n.left = none ∧ n.right = none) := by
  cases n <;> simp_all [Node.is_leaf, Node.left, Node.right, bothOrNone]

/-- Every tree produced by the structural decoder satisfies the both-or-none
invariant. -/
theorem deser_bothOrNone (cap : StatisticCap δ σ) (data : δ) :
    ∀ (fuel : Nat) (s : List (Token β σ δ)) (n : Node β σ)
      (rest : List (Token β σ δ)),
      deserializeNode cap data fuel s = .ok (n, rest) →
      bothOrNone n = true := by
  intro fuel
  induction fuel with
  | zero =>
      intro s n rest h
      simp [deserializeNode] at h
  | succ k ih =>
      intro s n rest h
      rw [deserializeNode.eq_def] at h
      split at h
      · simp at h
      · rename_i fuel' b g c s1 heqf
        obtain rfl : fuel' = k := by omega
        split at h
        · simp at h
        · rename_i l s2 h1
          split at h
          · simp at h
          · rename_i r s3 h2
            split at h
            · simp at h
            · rename_i m h3
              simp only [Except.ok.injEq, Prod.mk.injEq] at h
              obtain ⟨rfl, rfl⟩ := h
              have hm := set_children_some_some_ok cap data b g c l r m h3
              subst hm
              simp only [bothOrNone, Bool.and_eq_true]
              exact ⟨ih s1 l s2 h1, ih s2 r s3 h2⟩
      · rename_i fuel' b g c s1 heqf
        split at h
        · simp at h
        · rename_i m h3
          simp only [Except.ok.injEq, Prod.mk.injEq] at h
          obtain ⟨rfl, rfl⟩ := h
          simp only [set_children, Except.ok.injEq] at h3
          subst h3
          rfl
      · simp at h

/-- C8 (amended): for every node of a tree satisfying the
both-children-or-none invariant, `is_leaf` is true iff both children are
absent; the structural decoder only produces trees satisfying that
invariant, and `set_children` called per contract — with both children or
with none — produces nodes satisfying it.  (Called with only a right child,
a contract violation, `set_children` instead produces a one-child node:
see the counterexample.) -/
theorem C8_is_leaf_iff_amended (cap : StatisticCap δ σ) (data : δ) :
    (∀ t : Node β σ, bothOrNone t = true → ∀ n ∈ subnodes t,
      (Node.is_leaf n = true ↔ (n.left = none ∧ n.right = none))) ∧
    (∀ (fuel : Nat) (s rest : List (Token β σ δ)) (n : Node β σ),
      deserializeNode cap data fuel s = .ok (n, rest) →
      bothOrNone n = true) ∧
    (∀ (b : β) (g c : Nat) (n : Node β σ),
      set_children cap data b g c none none = .ok n →
      bothOrNone n = true) ∧
    (∀ (b : β) (g c : Nat) (l r n : Node β σ),
      bothOrNone l = true → bothOrNone r = true →
      set_children cap data b g c (some l) (some r) = .ok n →
      bothOrNone n = true) := by
  refine ⟨?_, ?_, ?_, ?_⟩
  · intro t hb n hn
    exact bothOrNone_is_leaf n (mem_bothOrNone t hb n hn)
  · intro fuel s rest n h
    exact deser_bothOrNone cap data fuel s n rest h
  · intro b g c n h
    simp only [set_children, Except.ok.injEq] at h
    subst h
    rfl
  · intro b g c l r n hl hr h
    have hm := set_children_some_some_ok cap data b g c l r n h
    subst hm
    simp [bothOrNone, hl, hr]

/-- Witness for the amended C8 on the example tree's root. -/
theorem C8_is_leaf_iff_amended_witness :
    Node.is_leaf exTree = true ↔
      (Node.left exTree = none ∧ Node.right exTree = none) :=
  (C8_is_leaf_iff_amended cap0 0).1 exTree (by decide) exTree (by decide)

/-- C10 counterexample: on an object whose sentinel says "uninitialized"
but whose child pointers are not the poison value, `Init` changes the
`left_` and `right_` fields too (`DEBUG_POISON_PTR` re-poisons them), so
`Init` does not write only the `begin` and `count` fields. -/
theorem C10_counterexample :
    Init (⟨6, .null, .null, BIG_BAD_NUMBER, BIG_BAD_NUMBER, 2⟩ :
        RawNode Nat Nat) 7 3 =
      .ok ⟨6, .poison, .poison, 7, 3, 2⟩ ∧
    (PtrState.null : PtrState Nat Nat) ≠ .poison := by
  refine ⟨?_, by decide⟩
  simp [Init]

/-- C10 (amended): `Init` writes `begin_` and `count_`, re-poisons the two
child-pointer fields (a no-op on a freshly constructed node, whose pointers
are already poisoned), and leaves `bound_` and `stat_` unchanged; on a
freshly constructed node the result differs from the original only in
`begin_` and `count_`.  No other node is involved. -/
theorem C10_init_frame_amended (n : RawNode β σ) (begin_in count_in : Nat)
    (m : RawNode β σ) (h : Init n begin_in count_in = .ok m) :
    m.bound_ = n.bound_ ∧ m.stat_ = n.stat_ ∧
    m.begin_ = begin_in ∧ m.count_ = count_in ∧
    m.left_ = .poison ∧ m.right_ = .poison ∧
    (n.left_ = .poison → n.right_ = .poison →
      m = { n with begin_ := begin_in, count_ := count_in }) := by
  simp only [Init] at h
  split at h
  · injection h with h
    subst h
    refine ⟨rfl, rfl, rfl, rfl, rfl, rfl, fun h1 h2 => ?_⟩
    cases n
    simp_all
  · simp at h

/-- Witness for the amended C10 on a freshly constructed node. -/
theorem C10_init_frame_amended_witness :
    (⟨6, .poison, .poison, 7, 3, 2⟩ : RawNode Nat Nat).begin_ = 7 :=
  (C10_init_frame_amended (RawNode.new 6 2) 7 3
    ⟨6, .poison, .poison, 7, 3, 2⟩ (by rfl)).2.2.1

/-!
Claims about the serialized stream.
-/

/-- No token of a structural encoding is a statistic token. -/
theorem serialize_no_stat :
    ∀ (t : Node β σ) (out : List (Token β σ δ)),
      Serialize t = .ok out → ∀ tok ∈ out, tok.isStat = false := by
  intro t
  induction t with
  | node0 b g c s =>
      intro out h tok htok
      simp only [Serialize, Except.ok.injEq] at h
      subst h
      simp only [List.mem_cons, List.not_mem_nil, or_false] at htok
      rcases htok with rfl | rfl | rfl | rfl <;> rfl
  | nodeL b g c s l ih =>
      intro out h tok htok
      simp [Serialize] at h
  | nodeR b g c s r ih =>
      intro out h tok htok
      simp only [Serialize, Except.ok.injEq] at h
      subst h
      simp only [List.mem_cons, List.not_mem_nil, or_false] at htok
      rcases htok with rfl | rfl | rfl | rfl <;> rfl
  | node2 b g c s l r ihl ihr =>
      intro out h tok htok
      simp only [Serialize] at h
      split at h
      · simp at h
      · rename_i ol h1
        split at h
        · simp at h
        · rename_i orr h2
          simp only [Except.ok.injEq] at h
          subst h
          simp only [List.mem_cons, List.mem_append] at htok
          rcases htok with rfl | rfl | rfl | rfl | htok | htok
          · rfl
          · rfl
          · rfl
          · rfl
          · exact ihl ol h1 tok htok
          · exact ihr orr h2 tok htok

/-- C6: per node the structural encoding is `[bound][begin][count][flag]`
followed, when the flag is true, by the left then the right subtree;
statistic tokens are never written; and the whole-tree stream is the format
tag, then the dataset payload, then the structural payload. -/
theorem C6_stream_layout (magicD magicB : Nat) (data : δ) :
    (∀ (b : β) (g c : Nat) (s : σ),
      Serialize (.node0 b g c s) =
        .ok ([.bd b, .idx g, .idx c, .flag false] : List (Token β σ δ))) ∧
    (∀ (b : β) (g c : Nat) (s : σ) (l r : Node β σ)
        (ol orr : List (Token β σ δ)),
      Serialize l = .ok ol → Serialize r = .ok orr →
      Serialize (.node2 b g c s l r) =
        .ok (.bd b :: .idx g :: .idx c :: .flag true :: (ol ++ orr))) ∧
    (∀ (t : Node β σ) (out : List (Token β σ δ)),
      Serialize t = .ok out → ∀ tok ∈ out, tok.isStat = false) ∧
    (∀ (t : Node β σ) (out : List (Token β σ δ)),
      Serialize t = .ok out →
      SerializeAll magicD magicB data t =
        .ok (.magic (CreateMagic_spacetree + magicD + magicB) ::
          .dataset data :: out)) := by
  refine ⟨fun b g c s => rfl, ?_, serialize_no_stat, ?_⟩
  · intro b g c s l r ol orr h1 h2
    simp [Serialize, h1, h2]
  · intro t out h
    simp [SerializeAll, h]

/-- Witness for C6: the example tree's full structural encoding. -/
theorem C6_stream_layout_witness :
    Serialize exTree =
      .ok ([.bd 100, .idx 0, .idx 8, .flag true,
            .bd 101, .idx 0, .idx 4, .flag false,
            .bd 102, .idx 4, .idx 4, .flag false] : List (Token Nat Nat Nat)) :=
  (C6_stream_layout 0 0 (0 : Nat)).2.1 100 0 8 0 leafA leafB
    [.bd 101, .idx 0, .idx 4, .flag false]
    [.bd 102, .idx 4, .idx 4, .flag false] rfl rfl

/-- C7: whole-tree load checks the format tag first; a stored tag different
from the expected one fails with a format-mismatch error whatever follows
in the stream, and no tree is produced. -/
theorem C7_magic_mismatch (cap : StatisticCap δ σ) (magicD magicB stored : Nat)
    (rest : List (Token β σ δ))
    (h : stored ≠ CreateMagic_spacetree + magicD + magicB) :
    DeserializeAll cap magicD magicB (.magic stored :: rest) =
      .error .formatMismatch ∧
    (∀ (d : δ) (t : Node β σ) (rest3 : List (Token β σ δ)),
      DeserializeAll cap magicD magicB (.magic stored :: rest) ≠
        .ok (d, t, rest3)) := by
  have heq : DeserializeAll cap magicD magicB (.magic stored :: rest) =
      .error .formatMismatch := by
    simp [DeserializeAll, h]
  exact ⟨heq, fun d t rest3 hok => by
    rw [heq] at hok
    exact Except.noConfusion hok⟩

/-- Witness for C7 with a concretely corrupted tag. -/
theorem C7_magic_mismatch_witness :
    DeserializeAll cap0 0 0
        ([.magic (CreateMagic_spacetree + 1)] : List (Token Nat Nat Nat)) =
      .error .formatMismatch :=
  (C7_magic_mismatch cap0 0 0 (CreateMagic_spacetree + 1) [] (by decide)).1

/-!
The round trip (C3): decoding an encoding yields the original structure
with bottom-up recomputed statistics.
-/

/-- The map `bottomUpStats` keeps each node's `begin`. -/
theorem bottomUpStats_begin (cap : StatisticCap δ σ) (data : δ)
    (t : Node β σ) : (bottomUpStats cap data t).begin = t.begin := by
  cases t <;> rfl

/-- The map `bottomUpStats` keeps each node's `count`. -/
theorem bottomUpStats_count (cap : StatisticCap δ σ) (data : δ)
    (t : Node β σ) : (bottomUpStats cap data t).count = t.count := by
  cases t <;> rfl

/-- The map `bottomUpStats` keeps the whole structure of the tree. -/
theorem sameShape_bottomUpStats [DecidableEq β] (cap : StatisticCap δ σ)
    (data : δ) (t : Node β σ) :
    sameShape t (bottomUpStats cap data t) = true := by
  induction t with
  | node0 b g c s => simp [bottomUpStats, sameShape]
  | nodeL b g c s l ih => simp [bottomUpStats, sameShape, ih]
  | nodeR b g c s r ih => simp [bottomUpStats, sameShape, ih]
  | node2 b g c s l r ihl ihr => simp [bottomUpStats, sameShape, ihl, ihr]

/-- A valid tree's encoding has at least one token per node. -/
theorem numNodes_le_length :
    ∀ (t : Node β σ) (out : List (Token β σ δ)), wellFormed t = true →
      Serialize t = .ok out → numNodes t ≤ out.length := by
  intro t
  induction t with
  | node0 b g c s =>
      intro out hwf h
      simp only [Serialize, Except.ok.injEq] at h
      subst h
      simp [numNodes]
  | nodeL b g c s l ih =>
      intro out hwf h
      simp [wellFormed] at hwf
  | nodeR b g c s r ih =>
      intro out hwf h
      simp [wellFormed] at hwf
  | node2 b g c s l r ihl ihr =>
      intro out hwf h
      simp only [wellFormed, Bool.and_eq_true, beq_iff_eq] at hwf
      obtain ⟨⟨⟨⟨hc, hlb⟩, hrb⟩, hwl⟩, hwr⟩ := hwf
      simp only [Serialize] at h
      split at h
      · simp at h
      · rename_i ol h1
        split at h
        · simp at h
        · rename_i orr h2
          simp only [Except.ok.injEq] at h
          subst h
          have il := ihl ol hwl h1
          have ir := ihr orr hwr h2
          simp only [numNodes, List.length_cons, List.length_append]
          omega

/-- Decoding an encoding with any sufficient fuel yields the bottom-up
recomputation of the encoded tree and leaves the trailing stream intact. -/
theorem deser_of_ser (cap : StatisticCap δ σ) (data : δ) :
    ∀ (t : Node β σ) (out : List (Token β σ δ)),
      wellFormed t = true → Serialize t = .ok out →
      ∀ (fuel : Nat) (rest : List (Token β σ δ)), numNodes t ≤ fuel →
        deserializeNode cap data fuel (out ++ rest) =
          .ok (bottomUpStats cap data t, rest) := by
  intro t
  induction t with
  | node0 b g c s =>
      intro out hwf hser fuel rest hfuel
      simp only [Serialize, Except.ok.injEq] at hser
      subst hser
      obtain ⟨k, rfl⟩ : ∃ k, fuel = k + 1 :=
        ⟨fuel - 1, by simp [numNodes] at hfuel; omega⟩
      simp [deserializeNode, set_children, bottomUpStats]
  | nodeL b g c s l ih =>
      intro out hwf
      simp [wellFormed] at hwf
  | nodeR b g c s r ih =>
      intro out hwf
      simp [wellFormed] at hwf
  | node2 b g c s l r ihl ihr =>
      intro out hwf hser fuel rest hfuel
      simp only [wellFormed, Bool.and_eq_true, beq_iff_eq] at hwf
      obtain ⟨⟨⟨⟨hc, hlb⟩, hrb⟩, hwl⟩, hwr⟩ := hwf
      simp only [Serialize] at hser
      split at hser
      · simp at hser
      · rename_i ol h1
        split at hser
        · simp at hser
        · rename_i orr h2
          simp only [Except.ok.injEq] at hser
          subst hser
          obtain ⟨k, rfl⟩ : ∃ k, fuel = k + 1 :=
            ⟨fuel - 1, by simp [numNodes] at hfuel; omega⟩
          have hnl : numNodes l ≤ k := by simp [numNodes] at hfuel; omega
          have hnr : numNodes r ≤ k := by simp [numNodes] at hfuel; omega
          simp only [List.cons_append, List.append_assoc]
          simp only [deserializeNode]
          rw [ihl ol hwl h1 k (orr ++ rest) hnl]
          simp only []
          rw [ihr orr hwr h2 k rest hnr]
          simp only []
          simp [set_children, bottomUpStats, bottomUpStats_begin,
            bottomUpStats_count, hc, hlb, hrb]

/-- C3: decoding the encoding of a valid tree against the same dataset
yields exactly the tree obtained from the original's structure by direct
bottom-up statistic construction — so every node has identical `begin`,
`count`, `bound` and children structure to the corresponding original node
(the `sameShape` conjunct), and its statistic is the bottom-up recomputed
one (leaves via the base form, internal nodes via the combine form), not a
copy of the original's. -/
theorem C3_roundtrip [DecidableEq β] (cap : StatisticCap δ σ) (data : δ)
    (t : Node β σ) (out rest : List (Token β σ δ))
    (hwf : wellFormed t = true) (hser : Serialize t = .ok out) :
    Deserialize cap data (out ++ rest) =
      .ok (bottomUpStats cap data t, rest) ∧
    sameShape t (bottomUpStats cap data t) = true := by
  refine ⟨?_, sameShape_bottomUpStats cap data t⟩
  have hlen := numNodes_le_length t out hwf hser
  have hfit : numNodes t ≤ (out ++ rest).length := by
    simp only [List.length_append]
    omega
  exact deser_of_ser cap data t out hwf hser (out ++ rest).length rest hfit

/-- Witness for C3: the example tree round-trips, with its statistics
recomputed bottom-up from the dataset value 5. -/
theorem C3_roundtrip_witness :
    Deserialize cap0 5
        (([.bd 100, .idx 0, .idx 8, .flag true,
           .bd 101, .idx 0, .idx 4, .flag false,
           .bd 102, .idx 4, .idx 4, .flag false] : List (Token Nat Nat Nat))
          ++ []) =
      .ok (bottomUpStats cap0 5 exTree, []) ∧
    sameShape exTree (bottomUpStats cap0 5 exTree) = true :=
  C3_roundtrip cap0 5 exTree
    [.bd 100, .idx 0, .idx 8, .flag true,
     .bd 101, .idx 0, .idx 4, .flag false,
     .bd 102, .idx 4, .idx 4, .flag false] [] (by decide) rfl
